import Mathlib

/-
Verification of the resilient database-access layer of the repository:
scoped connection management (with_db_connection, DatabaseConnection),
transaction wrapping (transactional), bounded retry (retry_on_failure),
query caching (cache_query), lazy row/batch/page streaming
(stream_users, stream_users_in_batches, lazy_pagination) and the
concurrent fetch coordinator (fetch_concurrently).

Each definition is a shallow embedding of the corresponding Python
function; doc comments name the source file and lines it is taken from.
-/

namespace Alx

/-- Observable events on a database connection, in the order the wrappers
issue them. -/
inductive DBEvent where
  | openConn
  | closeConn
  | commit
  | rollback
deriving DecidableEq, Repr

/-- Behaviour of one connection object with respect to the two calls the
wrappers issue on it: `commitResult = none` means `conn.commit()` succeeds,
`some e` means it raises `e`; likewise `rollbackResult` for
`conn.rollback()`. -/
structure Conn where
  commitResult : Option String
  rollbackResult : Option String
deriving DecidableEq, Repr

/-- Embedding of `transactional` from
src/python-decorators-0x01/2-transactional.py lines 45-66.

The Python wrapper is
`try: result = func(conn, ...); conn.commit(); return result
 except Exception as e: conn.rollback(); raise`.
`work` is the outcome of `func`.  Note that when `conn.commit()` itself
raises, control enters the `except` clause, so `conn.rollback()` is also
invoked and the commit error (or, if rollback also raises, the rollback
error) propagates.  The returned list is the sequence of commit/rollback
calls issued on the connection. -/
def transactional {α : Type} (conn : Conn) (work : Except String α) :
    Except String α × List DBEvent :=
  match work with
  | .ok r =>
    match conn.commitResult with
    | none => (.ok r, [.commit])
    | some e =>
      match conn.rollbackResult with
      | none => (.error e, [.commit, .rollback])
      | some e2 => (.error e2, [.commit, .rollback])
  | .error e =>
    match conn.rollbackResult with
    | none => (.error e, [.rollback])
    | some e2 => (.error e2, [.rollback])

/-- Embedding of `with_db_connection` from
src/python-decorators-0x01/2-transactional.py lines 11-40
(the same wrapper also appears in 1-with_db_connection.py,
3-retry_on_failure.py and 4-cache_query.py).

`acquire` is the outcome of `sqlite3.connect`; if it raises, `conn` is
still `None` so the `finally` block closes nothing.  Otherwise the body
runs and the `finally` block closes the connection on every exit path,
after the body (and hence after any commit/rollback an enclosed
`transactional` wrapper performed). -/
def with_db_connection {α : Type} (acquire : Except String Conn)
    (body : Conn → Except String α × List DBEvent) :
    Except String α × List DBEvent :=
  match acquire with
  | .error e => (.error e, [])
  | .ok conn =>
    let r := body conn
    (r.1, .openConn :: (r.2 ++ [.closeConn]))

/-- Embedding of the `DatabaseConnection` context manager from
src/python-context-async-perations-0x02/0-databaseconnection.py
(`__enter__` lines 25-40, `__exit__` lines 42-69) driving a `with` block.

`__exit__` first issues `conn.rollback()` when the block raised, else
`conn.commit()`; these calls are not wrapped in `try`, so if the issued
call itself raises, the `self.cursor.close()` / `self.conn.close()` lines
below it are never reached and the connection is not closed. -/
def databaseConnection_with {α : Type} (acquire : Except String Conn)
    (body : Conn → Except String α) :
    Except String α × List DBEvent :=
  match acquire with
  | .error e => (.error e, [])
  | .ok conn =>
    match body conn with
    | .ok r =>
      match conn.commitResult with
      | none => (.ok r, [.openConn, .commit, .closeConn])
      | some e => (.error e, [.openConn, .commit])
    | .error e =>
      match conn.rollbackResult with
      | none => (.error e, [.openConn, .rollback, .closeConn])
      | some e2 => (.error e2, [.openConn, .rollback])

/-- Claim C1, counterexample.  The claim asserts that for every invocation
of the with_db_connection wrapper or the DatabaseConnection context
manager, whether the wrapped work returns normally or raises, the acquired
connection is released exactly once.  Here the DatabaseConnection context
manager is entered successfully, the body returns normally, but the commit
issued by `__exit__` raises, so `conn.close()` is never reached: the trace
contains no close event at all. -/
theorem C1_counterexample :
    ((databaseConnection_with (.ok ⟨some "disk I O error", none⟩)
      (fun _ => .ok (0 : Nat))).2).count .closeConn = 0 := by
  decide

/-- Claim C1, amended.  The with_db_connection wrapper releases the
acquired connection exactly once on every exit path (the close being the
last event, hence after any commit/rollback decision of the enclosed
transactional wrapper); the DatabaseConnection context manager does the
same provided the commit or rollback call its `__exit__` issues does not
itself raise. -/
theorem C1_release_amended (conn : Conn) (w : Except String Nat)
    (body : Conn → Except String Nat) :
    (∃ pre, (with_db_connection (.ok conn) (fun c => transactional c w)).2
        = pre ++ [.closeConn] ∧ DBEvent.closeConn ∉ pre) ∧
    (conn.commitResult = none → conn.rollbackResult = none →
      ∃ pre, (databaseConnection_with (.ok conn) body).2
          = pre ++ [.closeConn] ∧ DBEvent.closeConn ∉ pre) := by
  constructor
  · refine ⟨.openConn :: (transactional conn w).2, ?_, ?_⟩
    · simp [with_db_connection]
    · rcases w with r | e <;>
        rcases h1 : conn.commitResult with _ | e1 <;>
        rcases h2 : conn.rollbackResult with _ | e2 <;>
        simp [transactional, h1, h2]
  · intro hc hr
    rcases hbody : body conn with e | r
    · exact ⟨[.openConn, .rollback], by simp [databaseConnection_with, hbody, hr], by decide⟩
    · exact ⟨[.openConn, .commit], by simp [databaseConnection_with, hbody, hc], by decide⟩

/-- Witness for C1_release_amended at a concrete connection and body. -/
theorem C1_witness :
    (∃ pre, (with_db_connection (.ok ⟨none, none⟩)
        (fun c => transactional c (.ok (5 : Nat)))).2
        = pre ++ [DBEvent.closeConn] ∧ DBEvent.closeConn ∉ pre) ∧
    (∃ pre, (databaseConnection_with (.ok ⟨none, none⟩)
        (fun _ => .ok (5 : Nat))).2
        = pre ++ [DBEvent.closeConn] ∧ DBEvent.closeConn ∉ pre) :=
  ⟨(C1_release_amended ⟨none, none⟩ (.ok 5) (fun _ => .ok 5)).1,
   (C1_release_amended ⟨none, none⟩ (.ok 5) (fun _ => .ok 5)).2 rfl rfl⟩

/-- Claim C2, counterexample.  The claim asserts that exactly one of
commit/rollback occurs per invocation of the transactional wrapper, never
both, including when the commit call itself fails.  Here the work returns
normally, commit raises, and the `except` clause then also issues a
rollback: both calls occur in one invocation, and the commit error is what
propagates. -/
theorem C2_counterexample :
    (transactional (⟨some "commit failed", none⟩ : Conn) (.ok (0 : Nat))).2
        = [.commit, .rollback] ∧
    (transactional (⟨some "commit failed", none⟩ : Conn) (.ok (0 : Nat))).1
        = .error "commit failed" := by
  constructor <;> rfl

/-- Claim C2, amended.  The transactional wrapper issues a commit iff the
work returns without error; on a work error it issues exactly one rollback
and, when the rollback call succeeds, re-raises the original error; when
work and commit both succeed the trace is exactly one commit; exactly one
of commit/rollback is issued per invocation except when the commit call
itself fails, in which case a rollback is issued as well (after the
commit) and the commit error propagates when rollback succeeds. -/
theorem C2_transactional_amended (conn : Conn) (w : Except String Nat) :
    ((transactional conn w).2.count .commit = 1 ↔ ∃ r, w = .ok r) ∧
    (∀ e, w = .error e → (transactional conn w).2 = [.rollback] ∧
        (conn.rollbackResult = none → (transactional conn w).1 = .error e)) ∧
    (∀ r, w = .ok r → conn.commitResult = none →
        transactional conn w = (.ok r, [.commit])) ∧
    (∀ r e, w = .ok r → conn.commitResult = some e →
        (transactional conn w).2 = [.commit, .rollback] ∧
        (conn.rollbackResult = none → (transactional conn w).1 = .error e)) ∧
    ((transactional conn w).2.count .commit + (transactional conn w).2.count .rollback = 1 ∨
      ((transactional conn w).2 = [.commit, .rollback] ∧
        ∃ e, conn.commitResult = some e)) := by
  rcases w with r | e <;>
    rcases h1 : conn.commitResult with _ | e1 <;>
    rcases h2 : conn.rollbackResult with _ | e2 <;>
    simp [transactional, h1, h2]

/-- Witness for C2_transactional_amended at a concrete connection and
work outcome. -/
theorem C2_witness :
    (transactional (⟨none, none⟩ : Conn) (.ok (3 : Nat))).2.count .commit = 1 :=
  (C2_transactional_amended ⟨none, none⟩ (.ok 3)).1.mpr ⟨3, rfl⟩

/-- Loop body of `retry_on_failure` from
src/python-decorators-0x01/3-retry_on_failure.py lines 50-63:
`for i in range(retries + 1): try: return func(...)
 except Exception as e: if i < retries: sleep(delay) else: raise`.

`f k` is the outcome of the call made in iteration `k` (attempt `k + 1`),
`i` is the current iteration index and `rem` the number of iterations
still allowed after the current one (`rem = retries - i`).  Returns the
final outcome, the number of calls made and the number of sleeps taken
from this iteration on. -/
def retryAux {α : Type} (f : Nat → Except String α) (i : Nat) :
    Nat → Except String α × Nat × Nat
  | 0 =>
    match f i with
    | .ok r => (.ok r, 1, 0)
    | .error e => (.error e, 1, 0)
  | rem + 1 =>
    match f i with
    | .ok r => (.ok r, 1, 0)
    | .error _ =>
      let p := retryAux f (i + 1) rem
      (p.1, p.2.1 + 1, p.2.2 + 1)

/-- Embedding of `retry_on_failure(retries, delay)` applied to an
operation whose successive call outcomes are `f 0, f 1, ...`
(src/python-decorators-0x01/3-retry_on_failure.py lines 41-64).  The
wrapper makes at most `retries + 1` calls; a fixed `delay` sleep is taken
after each failing non-final call.  Result components: outcome, number of
calls made, number of sleeps taken. -/
def retry_on_failure {α : Type} (retries : Nat) (f : Nat → Except String α) :
    Except String α × Nat × Nat :=
  retryAux f 0 retries

theorem retryAux_calls_le {α : Type} (f : Nat → Except String α) :
    ∀ rem i, (retryAux f i rem).2.1 ≤ rem + 1 := by
  intro rem
  induction rem with
  | zero =>
    intro i
    rcases h : f i with e | r <;> simp [retryAux, h]
  | succ rem ih =>
    intro i
    rcases h : f i with e | r <;> simp [retryAux, h]
    exact ih (i + 1)

/-- Claim C3.  The retry policy of the source realises the specified
`maxAttempts = 3` configuration at `retries = 2` (the source counts the
initial call separately: `range(retries + 1)` iterations in all).  It
invokes the operation at most 3 times; an operation failing on attempts 1
and 2 and succeeding on attempt 3 yields the attempt-3 result after
exactly 2 fixed delays; an operation failing on all 3 attempts propagates
the attempt-3 error, again after exactly 2 delays (no delay follows the
final failure). -/
theorem C3_retry_policy {α : Type} (f : Nat → Except String α) :
    (retry_on_failure 2 f).2.1 ≤ 3 ∧
    (∀ e0 e1 v, f 0 = .error e0 → f 1 = .error e1 → f 2 = .ok v →
        retry_on_failure 2 f = (.ok v, 3, 2)) ∧
    (∀ e0 e1 e2, f 0 = .error e0 → f 1 = .error e1 → f 2 = .error e2 →
        retry_on_failure 2 f = (.error e2, 3, 2)) := by
  refine ⟨retryAux_calls_le f 2 0, ?_, ?_⟩
  · intro e0 e1 v h0 h1 h2
    simp [retry_on_failure, retryAux, h0, h1, h2]
  · intro e0 e1 e2 h0 h1 h2
    simp [retry_on_failure, retryAux, h0, h1, h2]

/-- Witness for C3_retry_policy: an operation failing on its first two
calls and succeeding on the third returns the third outcome after two
delays. -/
theorem C3_witness :
    retry_on_failure 2
        (fun i => if i < 2 then .error "database is busy" else .ok (7 : Nat))
      = (.ok 7, 3, 2) :=
  (C3_retry_policy (fun i => if i < 2 then .error "database is busy" else .ok 7)).2.1
    "database is busy" "database is busy" 7 rfl rfl rfl

/-- Value of the `age` column as seen by Python: `ival n` is a value that
`int(...)` converts to `n`; `bad` is a value on which `int(...)` raises
`ValueError` or `TypeError`. -/
inductive AgeVal where
  | ival : Int → AgeVal
  | bad : AgeVal
deriving DecidableEq, Repr

/-- One row of the `user_data` table, with the columns the streaming
queries select (`SELECT user_id, name, email, age FROM user_data`). -/
structure Row where
  user_id : Nat
  name : String
  email : String
  age : AgeVal
deriving DecidableEq, Repr

/-- Result of driving one generator-based stream source to completion:
the units it yielded, the error it let propagate to the caller (if any),
and whether its `finally` clause closed the cursor/connection. -/
structure StreamRun (β : Type) where
  yielded : List β
  raised : Option String
  closed : Bool
deriving DecidableEq, Repr

/-- Units produced by a cursor script before the script ends or a fetch
raises; second component is the error the failing fetch raised, if any. -/
def yieldUntilErr {β : Type} : List (Except String β) → List β × Option String
  | [] => ([], none)
  | .ok b :: rest =>
    let p := yieldUntilErr rest
    (b :: p.1, p.2)
  | .error e :: _ => ([], some e)

/-- Embedding of `stream_users` from
src/python-generators-0x00/0-stream_users.py lines 14-58, run to
completion against a cursor whose successive `fetchone` calls behave as
`script` (end of the list meaning `fetchone` returns `None`).  A raising
fetch lands in the `except` clauses (lines 49-52), which print the error
and fall through to `finally` (lines 53-58): the cursor and connection are
closed and the generator simply ends, re-raising nothing. -/
def stream_users_run (script : List (Except String Row)) : StreamRun Row :=
  match yieldUntilErr script with
  | (rs, some _e) => ⟨rs, none, true⟩
  | (rs, none) => ⟨rs, none, true⟩

/-- Embedding of the fetch loop of `stream_users_in_batches` from
src/python-generators-0x00/1-batch_processing.py lines 30-58, run against
a cursor whose successive `fetchmany` calls behave as `script` (end of the
list meaning an empty batch).  As in `stream_users_run`, a raising fetch
is caught and printed (lines 49-53) and the `finally` clause (lines 54-58)
closes cursor and connection; nothing is re-raised. -/
def stream_users_in_batches_run (script : List (Except String (List Row))) :
    StreamRun (List Row) :=
  match yieldUntilErr script with
  | (bs, some _e) => ⟨bs, none, true⟩
  | (bs, none) => ⟨bs, none, true⟩

/-- Embedding of `paginate_users` from
src/python-generators-0x00/2-lazy_paginate.py lines 14-50 with the
outcome of the page query given by `fetch`.  On a raising fetch the
`except` clauses (lines 40-45) print the error and return `[]`; the
`finally` clause (lines 46-50) closes cursor and connection either way.
Result components: returned page, error propagated to the caller,
connection closed. -/
def paginate_users_run (fetch : Except String (List Row)) :
    List Row × Option String × Bool :=
  match fetch with
  | .ok rows => (rows, none, true)
  | .error _e => ([], none, true)

/-- Claim C4, counterexample.  The claim asserts a database error raised
during row fetching is never swallowed and is re-raised to the caller.
Here the second `fetchone` of `stream_users` raises, yet the caller sees a
silently truncated one-row sequence and no error: the generator catches
the error, prints it and ends. -/
theorem C4_counterexample :
    stream_users_run
        [.ok ⟨1, "Alice", "alice@example.com", .ival 30⟩,
         .error "2013: Lost connection to MySQL server"]
      = ⟨[⟨1, "Alice", "alice@example.com", .ival 30⟩], none, true⟩ := by
  rfl

/-- Claim C4, amended.  Each stream source does release its cursor and
connection on a database error (the `finally` clause runs), but the error
is caught and logged rather than re-raised: whatever the cursor script,
the row and batch sources propagate no error and yield exactly the units
fetched before the failure, and the page fetch propagates no error and
returns an empty page in place of the failed one. -/
theorem C4_streams_swallow_amended (script : List (Except String Row))
    (bscript : List (Except String (List Row)))
    (fetch : Except String (List Row)) :
    (stream_users_run script).raised = none ∧
    (stream_users_run script).closed = true ∧
    (stream_users_run script).yielded = (yieldUntilErr script).1 ∧
    (stream_users_in_batches_run bscript).raised = none ∧
    (stream_users_in_batches_run bscript).closed = true ∧
    (stream_users_in_batches_run bscript).yielded = (yieldUntilErr bscript).1 ∧
    (paginate_users_run fetch).2.1 = none ∧
    (paginate_users_run fetch).2.2 = true ∧
    (∀ e, fetch = .error e → (paginate_users_run fetch).1 = []) := by
  refine ⟨?_, ?_, ?_, ?_, ?_, ?_, ?_, ?_, ?_⟩
  all_goals
    first
      | (rcases h : yieldUntilErr script with ⟨rs, _ | e⟩ <;>
          simp [stream_users_run, h])
      | (rcases h : yieldUntilErr bscript with ⟨bs, _ | e⟩ <;>
          simp [stream_users_in_batches_run, h])
      | (rcases fetch with e | rows <;> simp [paginate_users_run])

/-- Witness for C4_streams_swallow_amended: a failing page fetch yields an
empty page to the caller. -/
theorem C4_witness :
    (paginate_users_run (.error "2013: Lost connection to MySQL server")).1 = [] :=
  (C4_streams_swallow_amended [] []
      (.error "2013: Lost connection to MySQL server")).2.2.2.2.2.2.2.2
    "2013: Lost connection to MySQL server" rfl

/-- Successive `fetchmany(b)` results of a cursor positioned on `l`:
each step removes the first `b` elements, until the cursor is exhausted.
This is the behaviour of the fetch loop of `stream_users_in_batches`
(src/python-generators-0x00/1-batch_processing.py lines 42-47) on an
error-free cursor. -/
def chunksOf {γ : Type} (b : Nat) : List γ → List (List γ)
  | [] => []
  | x :: xs => (x :: xs.take (b - 1)) :: chunksOf b (xs.drop (b - 1))
termination_by l => l.length
decreasing_by
  simp only [List.length_drop, List.length_cons]
  omega

/-- Embedding of `stream_users_in_batches(batch_size)` from
src/python-generators-0x00/1-batch_processing.py lines 15-58 over a table
holding `rows`, on the error-free path.  Lines 27-28 raise `ValueError`
for a non-positive `batch_size` before touching the store; otherwise the
loop yields successive `fetchmany(batch_size)` results until an empty
batch. -/
def stream_users_in_batches (batch_size : Int) (rows : List Row) :
    Except String (List (List Row)) :=
  if batch_size ≤ 0 then .error "batch_size must be a positive integer."
  else .ok (chunksOf batch_size.toNat rows)

/-- Embedding of the query in `paginate_users`
(src/python-generators-0x00/2-lazy_paginate.py lines 36-39):
`SELECT ... LIMIT page_size OFFSET offset` over a table holding `rows`. -/
def paginate_users (rows : List Row) (page_size offset : Nat) : List Row :=
  (rows.drop offset).take page_size

/-- The page loop of `lazy_pagination`
(src/python-generators-0x00/2-lazy_paginate.py lines 68-75): fetch the
page at `offset`; stop on the first empty page; otherwise yield it and
advance `offset` by `p`. -/
def lazyPagesAux (rows : List Row) (p : Nat) (hp : 0 < p) (offset : Nat) :
    List (List Row) :=
  if h : paginate_users rows p offset = [] then []
  else paginate_users rows p offset :: lazyPagesAux rows p hp (offset + p)
termination_by rows.length - offset
decreasing_by
  simp only [paginate_users] at h
  rcases hd : rows.drop offset with _ | ⟨y, ys⟩
  · rw [hd] at h
    simp at h
  · have hlen : (rows.drop offset).length = rows.length - offset := List.length_drop offset rows
    rw [hd] at hlen
    simp only [List.length_cons] at hlen
    omega

/-- Embedding of `lazy_pagination(page_size)` from
src/python-generators-0x00/2-lazy_paginate.py lines 53-75 over a table
holding `rows`, on the error-free path.  Lines 65-66 raise `ValueError`
for a non-positive `page_size`; otherwise pages are fetched from offset 0
until the first empty page. -/
def lazy_pagination (page_size : Int) (rows : List Row) :
    Except String (List (List Row)) :=
  if h : page_size ≤ 0 then .error "page_size must be a positive integer."
  else .ok (lazyPagesAux rows page_size.toNat (by omega) 0)

theorem join_chunksOf {γ : Type} (b : Nat) (l : List γ) :
    (chunksOf b l).flatten = l := by
  have H : ∀ (n : Nat) (l : List γ), l.length ≤ n → (chunksOf b l).flatten = l := by
    intro n
    induction n with
    | zero =>
      intro l hl
      have : l = [] := List.eq_nil_of_length_eq_zero (Nat.le_zero.mp hl)
      subst this
      simp [chunksOf]
    | succ n ih =>
      intro l hl
      match l with
      | [] => simp [chunksOf]
      | x :: xs =>
        rw [chunksOf]
        simp only [List.flatten_cons]
        rw [ih (xs.drop (b - 1)) (by simp at hl ⊢; omega)]
        simp [List.take_append_drop]
  exact H l.length l le_rfl

theorem join_lazyPagesAux (rows : List Row) (p : Nat) (hp : 0 < p) :
    ∀ (offset : Nat), (lazyPagesAux rows p hp offset).flatten = rows.drop offset := by
  have H : ∀ (n : Nat) (offset : Nat), rows.length - offset ≤ n →
      (lazyPagesAux rows p hp offset).flatten = rows.drop offset := by
    intro n
    induction n with
    | zero =>
      intro offset hn
      have hdrop : rows.drop offset = [] := by
        apply List.drop_eq_nil_of_le
        omega
      unfold lazyPagesAux
      simp [paginate_users, hdrop]
    | succ n ih =>
      intro offset hn
      unfold lazyPagesAux
      by_cases h : paginate_users rows p offset = []
      · have hdrop : rows.drop offset = [] := by
          by_contra hne
          rcases List.exists_cons_of_ne_nil hne with ⟨y, ys, hys⟩
          simp only [paginate_users, hys] at h
          rcases p with _ | p
          · omega
          · simp [List.take_cons] at h
        simp [h, hdrop]
      · rw [dif_neg h]
        simp only [List.flatten_cons]
        rw [ih (offset + p) (by omega)]
        simp only [paginate_users]
        rw [← List.drop_drop]
        exact List.take_append_drop p (rows.drop offset)
  intro offset
  exact H (rows.length - offset) offset le_rfl

/-- Claim C5.  For every batch size `b` with `1 ≤ b ≤` row count and every
page size `p ≥ 1`, over a fixed table (no concurrent writes): batch
streaming succeeds and concatenating its batches reproduces the table
rows, lazy pagination from offset 0 until the first empty page succeeds
and concatenating its pages reproduces the table rows, and the
row-streaming source over an error-free cursor yields the table rows —
all three in the same order, with no duplicate or skipped rows. -/
theorem C5_stream_equivalence (rows : List Row) (b p : Int)
    (hb1 : 1 ≤ b) (hb2 : b ≤ (rows.length : Int)) (hp : 1 ≤ p) :
    ∃ batches pages,
      stream_users_in_batches b rows = .ok batches ∧
      lazy_pagination p rows = .ok pages ∧
      batches.flatten = rows ∧
      pages.flatten = rows ∧
      (stream_users_run (rows.map Except.ok)).yielded = rows := by
  refine ⟨chunksOf b.toNat rows, lazyPagesAux rows p.toNat (by omega) 0, ?_, ?_, ?_, ?_, ?_⟩
  · simp [stream_users_in_batches]
    omega
  · rw [lazy_pagination, dif_neg (by omega)]
  · exact join_chunksOf b.toNat rows
  · rw [join_lazyPagesAux rows p.toNat (by omega) 0]
    exact List.drop_zero rows
  · have hy : ∀ (l : List Row), yieldUntilErr (l.map Except.ok) = (l, none) := by
      intro l
      induction l with
      | nil => rfl
      | cons x xs ih => simp [yieldUntilErr, ih]
    simp [stream_users_run, hy rows]

/-- Witness for C5_stream_equivalence on a 4-row table with batch size 2
and page size 2. -/
theorem C5_witness :
    ∃ batches pages,
      stream_users_in_batches 2
          [⟨1, "a", "a@x", .ival 30⟩, ⟨2, "b", "b@x", .ival 22⟩,
           ⟨3, "c", "c@x", .ival 45⟩, ⟨4, "d", "d@x", .ival 28⟩] = .ok batches ∧
      lazy_pagination 2
          [⟨1, "a", "a@x", .ival 30⟩, ⟨2, "b", "b@x", .ival 22⟩,
           ⟨3, "c", "c@x", .ival 45⟩, ⟨4, "d", "d@x", .ival 28⟩] = .ok pages ∧
      batches.flatten
          = [⟨1, "a", "a@x", .ival 30⟩, ⟨2, "b", "b@x", .ival 22⟩,
             ⟨3, "c", "c@x", .ival 45⟩, ⟨4, "d", "d@x", .ival 28⟩] ∧
      pages.flatten
          = [⟨1, "a", "a@x", .ival 30⟩, ⟨2, "b", "b@x", .ival 22⟩,
             ⟨3, "c", "c@x", .ival 45⟩, ⟨4, "d", "d@x", .ival 28⟩] ∧
      (stream_users_run
          ([⟨1, "a", "a@x", .ival 30⟩, ⟨2, "b", "b@x", .ival 22⟩,
            ⟨3, "c", "c@x", .ival 45⟩, ⟨4, "d", "d@x", .ival 28⟩].map Except.ok)).yielded
          = [⟨1, "a", "a@x", .ival 30⟩, ⟨2, "b", "b@x", .ival 22⟩,
             ⟨3, "c", "c@x", .ival 45⟩, ⟨4, "d", "d@x", .ival 28⟩] :=
  C5_stream_equivalence
    [⟨1, "a", "a@x", .ival 30⟩, ⟨2, "b", "b@x", .ival 22⟩,
     ⟨3, "c", "c@x", .ival 45⟩, ⟨4, "d", "d@x", .ival 28⟩]
    2 2 (by norm_num) (by norm_num) (by norm_num)

/-- First seeded user row (age 30). -/
def u1 : Row := ⟨1, "Alice", "alice@example.com", .ival 30⟩

/-- Second seeded user row (age 22). -/
def u2 : Row := ⟨2, "Bob", "bob@example.com", .ival 22⟩

/-- Third seeded user row (age 45). -/
def u3 : Row := ⟨3, "Charlie", "charlie@example.com", .ival 45⟩

/-- Fourth seeded user row (age 28). -/
def u4 : Row := ⟨4, "Diana", "diana@example.com", .ival 28⟩

/-- The 4-row seeded table with ages 30, 22, 45, 28. -/
def rows4 : List Row := [u1, u2, u3, u4]

/-- Claim C6.  On the 4-row table: lazy pagination with page size 2 yields
exactly the two full pages, the underlying page fetches at offsets 0, 2
and 4 (each offset `pageSize` past the previous) return two rows, two rows
and the empty page ending the sequence; batch streaming with batch size 3
yields one batch of 3 rows and one final short batch of 1 row rather than
an error. -/
theorem C6_concrete_scenario :
    lazy_pagination 2 rows4 = .ok [[u1, u2], [u3, u4]] ∧
    paginate_users rows4 2 0 = [u1, u2] ∧
    paginate_users rows4 2 2 = [u3, u4] ∧
    paginate_users rows4 2 4 = [] ∧
    stream_users_in_batches 3 rows4 = .ok [[u1, u2, u3], [u4]] := by
  have key : ∀ (p : Nat) (hp : 0 < p), p = 2 →
      lazyPagesAux rows4 p hp 0 = [[u1, u2], [u3, u4]] := by
    intro p hp hp2
    subst hp2
    unfold lazyPagesAux
    rw [dif_neg (by decide)]
    unfold lazyPagesAux
    rw [dif_neg (by decide)]
    unfold lazyPagesAux
    rw [dif_pos (by decide)]
    decide
  have keyb : chunksOf 3 rows4 = [[u1, u2, u3], [u4]] := by
    show chunksOf 3 [u1, u2, u3, u4] = [[u1, u2, u3], [u4]]
    rw [chunksOf]
    show ([u1, u2, u3] : List Row) :: chunksOf 3 [u4] = [[u1, u2, u3], [u4]]
    rw [chunksOf]
    show ([u1, u2, u3] : List Row) :: [u4] :: chunksOf 3 ([] : List Row)
        = [[u1, u2, u3], [u4]]
    rw [chunksOf]
  refine ⟨?_, rfl, rfl, rfl, ?_⟩
  · rw [lazy_pagination, dif_neg (by norm_num)]
    exact congrArg Except.ok (key _ _ (by decide))
  · rw [stream_users_in_batches, if_neg (by norm_num)]
    exact congrArg Except.ok keyb

/-- Conversion of an `age` value by Python `int(...)`: `none` when the
call raises `ValueError` or `TypeError`. -/
def intOfAge : AgeVal → Option Int
  | .ival n => some n
  | .bad => none

/-- Embedding of `stream_user_ages` from
src/python-generators-0x00/4-stream_ages.py lines 14-52 over a table
holding `rows`, on the error-free fetch path: yields `int(row[age])` row
by row; a conversion error raised inside the generator is caught by its
own `except` clause (lines 46-47), which prints it and ends the stream
after the `finally` cleanup. -/
def stream_user_ages : List Row → List Int
  | [] => []
  | r :: rest =>
    match intOfAge r.age with
    | some a => a :: stream_user_ages rest
    | none => []

/-- Embedding of `calculate_average_age_from_stream` from
src/python-generators-0x00/4-stream_ages.py lines 55-75: a single pass
over the age stream accumulating only a running `(total_age, user_count)`
pair, then `some (total_age / user_count)` when `user_count > 0` (the
printed average) and `none` (the printed no-data message) otherwise. -/
def calculate_average_age_from_stream (rows : List Row) : Option ℚ :=
  let acc := (stream_user_ages rows).foldl
    (fun p a => (p.1 + a, p.2 + 1)) ((0 : Int), (0 : Nat))
  if 0 < acc.2 then some ((acc.1 : ℚ) / (acc.2 : ℚ)) else none

theorem foldl_sum_count (l : List Int) (s : Int) (c : Nat) :
    l.foldl (fun p a => (p.1 + a, p.2 + 1)) (s, c) = (s + l.sum, c + l.length) := by
  induction l generalizing s c with
  | nil => simp
  | cons a l ih =>
    simp only [List.foldl_cons, ih, List.sum_cons, List.length_cons]
    have h1 : s + a + l.sum = s + (a + l.sum) := by ring
    have h2 : c + 1 + l.length = c + (l.length + 1) := by omega
    rw [h1, h2]

theorem stream_user_ages_map : ∀ (rows : List Row) (ages : List Int),
    rows.map Row.age = ages.map AgeVal.ival → stream_user_ages rows = ages := by
  intro rows
  induction rows with
  | nil =>
    intro ages h
    cases ages with
    | nil => rfl
    | cons a as => simp at h
  | cons r rest ih =>
    intro ages h
    cases ages with
    | nil => simp at h
    | cons a as =>
      simp only [List.map_cons, List.cons.injEq] at h
      obtain ⟨h1, h2⟩ := h
      simp [stream_user_ages, intOfAge, h1, ih as h2]

/-- Claim C7.  The streaming average-age aggregation accumulates one
running sum and count over a single pass of the age stream; on an empty
stream it reports no data instead of dividing by zero, on a non-empty
stream of ages it reports their sum divided by their count, and on the
seeded ages 30, 22, 45, 28 the reported average is 125/4 = 31.25. -/
theorem C7_average_age (rows : List Row) (ages : List Int)
    (h : rows.map Row.age = ages.map AgeVal.ival) :
    (rows = [] → calculate_average_age_from_stream rows = none) ∧
    (rows ≠ [] → calculate_average_age_from_stream rows
        = some ((ages.sum : ℚ) / (ages.length : ℚ))) ∧
    calculate_average_age_from_stream rows4 = some (125 / 4) ∧
    ((125 : ℚ) / 4) = 31.25 := by
  refine ⟨?_, ?_, ?_, by norm_num⟩
  · intro hnil
    subst hnil
    rfl
  · intro hne
    have hs : stream_user_ages rows = ages := stream_user_ages_map rows ages h
    have hlen : ages ≠ [] := by
      intro hz
      subst hz
      simp at h
      exact hne h
    have hpos : 0 < ages.length := List.length_pos.mpr hlen
    simp only [calculate_average_age_from_stream, hs, foldl_sum_count,
      Int.zero_add, Nat.zero_add]
    rw [if_pos hpos]
  · have hs : stream_user_ages rows4 = [30, 22, 45, 28] := by decide
    simp only [calculate_average_age_from_stream, hs, foldl_sum_count]
    norm_num

/-- Witness for C7_average_age: on the seeded 4-row table the aggregation
reports the sum of the ages divided by their count. -/
theorem C7_witness :
    rows4 ≠ [] ∧
    calculate_average_age_from_stream rows4
      = some ((([30, 22, 45, 28] : List Int).sum : ℚ)
          / (([30, 22, 45, 28] : List Int).length : ℚ)) :=
  ⟨by decide,
    (C7_average_age rows4 [30, 22, 45, 28] (by decide)).2.1 (by decide)⟩

/-- Embedding of `cache_query` from
src/python-decorators-0x01/4-cache_query.py lines 44-67.  The global
`query_cache` dictionary (line 11) is passed and returned explicitly as an
association list whose lookup finds the most recent binding of a key;
`compute q` is the result of running the wrapped fetch on query string
`q`.  Result components: returned rows, cache after the call, and whether
the wrapped fetch was invoked (the cache-miss branch, lines 61-66). -/
def cache_query (compute : String → List Row)
    (cache : List (String × List Row)) (query : String) :
    List Row × List (String × List Row) × Bool :=
  match cache.lookup query with
  | some r => (r, cache, false)
  | none =>
    let r := compute query
    (r, (query, r) :: cache, true)

/-- Claim C8.  On a query key not yet cached, the first call invokes the
wrapped fetch, stores the result under the exact query string and returns
it; any later call from a cache holding that binding returns the same
result without invoking the fetch and leaves the cache unchanged — in
particular the immediate second call with the same key. -/
theorem C8_cache_query (compute : String → List Row)
    (cache : List (String × List Row)) (q : String)
    (h : cache.lookup q = none) :
    (cache_query compute cache q).2.2 = true ∧
    (cache_query compute cache q).1 = compute q ∧
    (cache_query compute cache q).2.1.lookup q = some (compute q) ∧
    (∀ c2, c2.lookup q = some (compute q) →
        cache_query compute c2 q = (compute q, c2, false)) ∧
    cache_query compute (cache_query compute cache q).2.1 q
      = (compute q, (cache_query compute cache q).2.1, false) := by
  have hmiss : cache_query compute cache q
      = (compute q, (q, compute q) :: cache, true) := by
    simp [cache_query, h]
  have hlook : ((q, compute q) :: cache).lookup q = some (compute q) := by
    simp [List.lookup]
  refine ⟨by simp [hmiss], by simp [hmiss], ?_, ?_, ?_⟩
  · rw [hmiss]
    exact hlook
  · intro c2 h2
    simp [cache_query, h2]
  · rw [hmiss]
    simp [cache_query, hlook]

/-- Witness for C8_cache_query starting from the empty cache. -/
theorem C8_witness :
    (cache_query (fun _ => [u1, u2]) [] "SELECT * FROM users").2.2 = true ∧
    (cache_query (fun _ => [u1, u2]) [] "SELECT * FROM users").1 = [u1, u2] ∧
    (cache_query (fun _ => [u1, u2]) [] "SELECT * FROM users").2.1.lookup
        "SELECT * FROM users" = some [u1, u2] ∧
    (∀ c2, c2.lookup "SELECT * FROM users" = some [u1, u2] →
        cache_query (fun _ => [u1, u2]) c2 "SELECT * FROM users"
          = ([u1, u2], c2, false)) ∧
    cache_query (fun _ => [u1, u2])
        (cache_query (fun _ => [u1, u2]) [] "SELECT * FROM users").2.1
        "SELECT * FROM users"
      = ([u1, u2],
         (cache_query (fun _ => [u1, u2]) [] "SELECT * FROM users").2.1,
         false) :=
  C8_cache_query (fun _ => [u1, u2]) [] "SELECT * FROM users" rfl

/-- The join step of `asyncio.gather` as used in `fetch_concurrently`
(src/python-context-async-perations-0x02/3-concurrent.py lines 81-93):
the event loop delivers the completed result of each submitted awaitable into
the result slot matching its submission index, in whatever order the
awaitables finish (`order` lists submission indices in completion order);
the assembled slot list is what `gather` returns. -/
def gatherCollect {γ : Type} (results : List γ) (order : List Nat) :
    List (Option γ) :=
  order.foldl (fun acc i => acc.set i results[i]?) (List.replicate results.length none)

theorem gatherFold_length {γ : Type} (results : List γ) :
    ∀ (order : List Nat) (acc : List (Option γ)),
      (order.foldl (fun acc i => acc.set i results[i]?) acc).length = acc.length := by
  intro order
  induction order with
  | nil => intro acc; rfl
  | cons i rest ih =>
    intro acc
    simp only [List.foldl_cons, ih, List.length_set]

theorem gatherFold_not_mem {γ : Type} (results : List γ) :
    ∀ (order : List Nat) (acc : List (Option γ)) (j : Nat), j ∉ order →
      (order.foldl (fun acc i => acc.set i results[i]?) acc)[j]? = acc[j]? := by
  intro order
  induction order with
  | nil =>
    intro acc j _
    rfl
  | cons i rest ih =>
    intro acc j hj
    simp only [List.mem_cons, not_or] at hj
    simp only [List.foldl_cons]
    rw [ih (acc.set i results[i]?) j hj.2]
    exact List.getElem?_set_ne (fun he => hj.1 he.symm)

theorem gatherFold_mem {γ : Type} (results : List γ) :
    ∀ (order : List Nat) (acc : List (Option γ)) (j : Nat), j ∈ order →
      j < acc.length →
      (order.foldl (fun acc i => acc.set i results[i]?) acc)[j]? = some results[j]? := by
  intro order
  induction order with
  | nil =>
    intro acc j hj _
    exact absurd hj (List.not_mem_nil j)
  | cons i rest ih =>
    intro acc j hj hlen
    simp only [List.foldl_cons]
    by_cases hr : j ∈ rest
    · exact ih (acc.set i results[i]?) j hr (by simpa using hlen)
    · have hij : j = i := by
        rcases List.mem_cons.mp hj with h | h
        · exact h
        · exact absurd h hr
      subst hij
      rw [gatherFold_not_mem results rest (acc.set j results[j]?) j hr]
      exact List.getElem?_set_self (by simpa using hlen)

/-- The gather join fills every slot: when the completion order delivers
each submitted index exactly once (any permutation of them), the
assembled result list is the submitted results in submission order. -/
theorem gatherCollect_perm {γ : Type} (results : List γ) (order : List Nat)
    (hperm : order.Perm (List.range results.length)) :
    gatherCollect results order = results.map Option.some := by
  unfold gatherCollect
  apply List.ext_getElem?
  intro j
  by_cases hj : j < results.length
  · rw [gatherFold_mem results order (List.replicate results.length none) j
        (hperm.mem_iff.mpr (List.mem_range.mpr hj)) (by simpa using hj)]
    rw [List.getElem?_map]
    rw [List.getElem?_eq_getElem hj]
    rfl
  · have hge : results.length ≤ j := Nat.le_of_not_lt hj
    have h1 : (order.foldl (fun acc i => acc.set i results[i]?)
        (List.replicate results.length none)).length = results.length := by
      simpa using gatherFold_length results order (List.replicate results.length none)
    rw [List.getElem?_eq_none (by rw [h1]; exact hge),
        List.getElem?_eq_none (by simpa using hge)]

/-- Python comparison of an `age` value with an integer threshold after
`int(...)` conversion: false when the value does not convert.  Also the
SQL predicate `age > k` on numeric ages. -/
def ageGT (v : AgeVal) (k : Int) : Bool :=
  match v with
  | .ival n => k < n
  | .bad => false

/-- Query run by `async_fetch_users`
(src/python-context-async-perations-0x02/3-concurrent.py lines 55-65):
`SELECT * FROM users` over a table holding `db`. -/
def async_fetch_users (db : List Row) : List Row := db

/-- Query run by `async_fetch_older_users`
(src/python-context-async-perations-0x02/3-concurrent.py lines 68-78):
`SELECT * FROM users WHERE age > 40` over a table holding `db`. -/
def async_fetch_older_users (db : List Row) : List Row :=
  db.filter (fun r => ageGT r.age 40)

/-- Embedding of `fetch_concurrently`
(src/python-context-async-perations-0x02/3-concurrent.py lines 81-93):
`asyncio.gather(async_fetch_users(), async_fetch_older_users())` with the
two awaitables finishing in completion order `order` (a permutation of
the submission indices 0 and 1). -/
def fetch_concurrently (db : List Row) (order : List Nat) :
    List (Option (List Row)) :=
  gatherCollect [async_fetch_users db, async_fetch_older_users db] order

/-- Claim C9.  Whatever order the two concurrently-run read-only queries
complete in (any permutation of the submission indices), the coordinator
returns their completed results in submission order: all users first,
then the users older than 40. -/
theorem C9_gather_order (db : List Row) (order : List Nat)
    (hperm : order.Perm [0, 1]) :
    fetch_concurrently db order
      = [some (async_fetch_users db), some (async_fetch_older_users db)] := by
  have h := gatherCollect_perm
    [async_fetch_users db, async_fetch_older_users db] order (by simpa using hperm)
  simpa [fetch_concurrently] using h

/-- Witness for C9_gather_order: on the seeded table, with the second
query completing before the first, the results still come back in
submission order. -/
theorem C9_witness :
    fetch_concurrently rows4 [1, 0]
      = [some rows4, some [u3]] := by
  have h := C9_gather_order rows4 [1, 0] (by decide)
  rw [h]
  have h2 : async_fetch_older_users rows4 = [u3] := by decide
  rw [h2]
  rfl

/-- Embedding of `batch_processing(batch_size)` from
src/python-generators-0x00/1-batch_processing.py lines 61-87 over a table
holding `rows`, on the error-free fetch path.  For each batch yielded by
`stream_users_in_batches` and each user in the batch, the row is yielded
when `int(user[age]) > 25`; a row whose age does not convert lands in the
`except` clause (lines 83-87), which prints a warning and continues with
the next row.  The `ValueError` for a non-positive batch size propagates
from `stream_users_in_batches` when the generator is first driven. -/
def batch_processing (batch_size : Int) (rows : List Row) :
    Except String (List Row) :=
  match stream_users_in_batches batch_size rows with
  | .error e => .error e
  | .ok batches =>
    .ok ((batches.map (fun b => b.filter (fun u => ageGT u.age 25))).flatten)

theorem filter_flatten {γ : Type} (q : γ → Bool) :
    ∀ (L : List (List γ)), (L.map (fun b => b.filter q)).flatten = L.flatten.filter q := by
  intro L
  induction L with
  | nil => rfl
  | cons b rest ih =>
    simp only [List.map_cons, List.flatten_cons, List.filter_append, ih]

/-- Claim C10.  For every positive batch size, batch_processing yields
exactly the rows of the underlying batch stream whose age converts to an
integer strictly greater than 25, one row at a time in stream order; a
row whose age does not convert is skipped rather than yielded or allowed
to abort the stream (the filter equality over the whole table entails
both). -/
theorem C10_batch_processing_filter (batch_size : Int) (rows : List Row)
    (hb : 1 ≤ batch_size) :
    batch_processing batch_size rows
      = .ok (rows.filter (fun u => ageGT u.age 25)) := by
  rw [batch_processing, stream_users_in_batches, if_neg (by omega)]
  show Except.ok (((chunksOf batch_size.toNat rows).map
      (fun b => b.filter (fun u => ageGT u.age 25))).flatten)
    = Except.ok (rows.filter (fun u => ageGT u.age 25))
  rw [filter_flatten, join_chunksOf]

/-- Witness for C10_batch_processing_filter on a table containing a row
whose age value does not convert to an integer: the two rows older than
25 are yielded, the bad-age row and the under-25 row are skipped. -/
theorem C10_witness :
    batch_processing 2 [u1, u2, ⟨5, "Eve", "eve@example.com", .bad⟩, u3]
      = .ok [u1, u3] := by
  have h := C10_batch_processing_filter 2
    [u1, u2, ⟨5, "Eve", "eve@example.com", .bad⟩, u3] (by norm_num)
  rw [h]
  rfl

end Alx
